import Mathlib

/-!
# Verification of `scripts/train.py` (plr-exercise)

A shallow embedding of the training/evaluation/hyperparameter-search script
`scripts/train.py` and proofs about it.  Machine reals are modelled by `ℚ`
(the script only ever compares, adds, multiplies and divides metric values);
Python exceptions are modelled by `Except PyErr`; the PyTorch global RNG is
an explicit state that `torch.manual_seed` overwrites.

External library collaborators (the CNN forward pass, the Adam update, the
shuffle permutation of a `DataLoader`) are abstract function parameters: the
script treats them as black boxes and so do we.  Everything the script itself
does — the batch loops, the loss/accuracy accumulation, the divisions, the
logging cadence, the argparse/trial orchestration, the arity of each call —
is embedded directly from the source.
-/

set_option autoImplicit false

namespace TrainPy

/-- The Python exceptions the script can raise. -/
inductive PyErr
  | typeError          -- calling a function with the wrong number of arguments
  | zeroDivisionError  -- integer/float division or modulo by zero
  | nameError          -- reading a local variable never assigned
  deriving Repr, DecidableEq

/-- One dataset example: an opaque input (image id) and an integer label. -/
structure Example where
  input : ℕ
  label : ℕ
  deriving Repr, DecidableEq

/-- The parsed CLI arguments of the script (argparse namespace).  Every field
has exactly the type argparse produces: `type=int` accepts any integer, so
`log_interval` is `ℤ` with no further constraint. -/
structure Args where
  batch_size : ℕ := 64
  test_batch_size : ℕ := 1000
  gamma : ℚ := 7/10
  no_cuda : Bool := false
  dry_run : Bool := false
  seed : ℕ := 1
  log_interval : ℤ := 10
  save_model : Bool := false
  deriving Repr, DecidableEq

/-- Scan for `argmaxIdx`, carrying best value, best index, current index; a
strictly greater value replaces the best, so ties keep the lowest index. -/
def argmaxGo : List ℚ → ℚ → ℕ → ℕ → ℕ
  | [], _, bi, _ => bi
  | v :: vs, bv, bi, i =>
    if bv < v then argmaxGo vs v i (i + 1) else argmaxGo vs bv bi (i + 1)

/-- `output.argmax(dim=1)` on one output row: index of the maximum entry,
first index on ties (PyTorch argmax returns the lowest index among maxima).
The scan starts from the row's first entry; torch errors on an empty row,
which a fixed class count rules out. -/
def argmaxIdx : List ℚ → ℕ
  | [] => 0
  | v :: vs => argmaxGo vs v 0 1

/-- `F.nll_loss(output, target)` for a single example whose `output` row is a
vector of log-probabilities: the negative of the entry at the target index. -/
def nll (output : List ℚ) (target : ℕ) : ℚ :=
  -(output.getD target 0)

/-- A `DataLoader` without shuffling: serve the dataset in order, in batches
of `bs` examples, the final batch possibly smaller. -/
def chunks {α : Type} (bs : ℕ) : List α → List (List α)
  | [] => []
  | x :: xs =>
    if bs = 0 then []
    else (x :: xs).take bs :: chunks bs ((x :: xs).drop bs)
termination_by l => l.length
decreasing_by
  simp only [List.length_drop, List.length_cons]
  omega

/-- `F.nll_loss(output, target, reduction="sum")` on one batch: the summed
per-example negative log-likelihood, with the model `m` giving each row. -/
def batchLoss (m : ℕ → List ℚ) (b : List Example) : ℚ :=
  (b.map (fun e => nll (m e.input) e.label)).sum

/-- `pred.eq(target.view_as(pred)).sum().item()` on one batch: how many
examples have `argmax` of the output row equal to the label. -/
def batchCorrect (m : ℕ → List ℚ) (b : List Example) : ℕ :=
  b.countP (fun e => argmaxIdx (m e.input) == e.label)

/-- The `for data, target in test_loader:` loop of `test`, accumulating
`test_loss` (summed batch losses) and `correct` (summed batch correct
counts) across the batch list. -/
def testLoop (m : ℕ → List ℚ) : List (List Example) → ℚ → ℕ → ℚ × ℕ
  | [], tl, c => (tl, c)
  | b :: bs, tl, c => testLoop m bs (tl + batchLoss m b) (c + batchCorrect m b)

/-- What `test` produces: the returned mean loss, and the two scalars emitted
to the metrics sink by `wandb.log({"test acc": ..., "test loss": ...})`. -/
structure TestOutput where
  returnedLoss : ℚ
  wandbTestAcc : ℚ
  wandbTestLoss : ℚ
  deriving Repr, DecidableEq

/-- The `test` function: iterate the test loader's batches once (no
parameter updates — it only reads the model `m`), then divide by
`len(test_loader.dataset)` (`datasetLen`).  In Python both
`test_loss /= len(...)` and the accuracy expression raise
`ZeroDivisionError` when the dataset is empty, hence the guard. -/
def test (m : ℕ → List ℚ) (testBatches : List (List Example))
    (datasetLen : ℕ) : Except PyErr TestOutput :=
  let acc := testLoop m testBatches 0 0
  if datasetLen = 0 then .error .zeroDivisionError
  else
    let meanLoss := acc.1 / (datasetLen : ℚ)
    .ok ⟨meanLoss, 100 * (acc.2 : ℚ) / (datasetLen : ℚ), meanLoss⟩

/-- `def test(model, device, test_loader):` — three parameters. -/
def test_paramCount : ℕ := 3

/-- `test_loss = test(model, device, test_loader, epoch)` — the call site in
`objective` passes four arguments. -/
def objective_testCallArgCount : ℕ := 4

/-- A Python call: the interpreter checks the argument count against the
callee's parameter count before running the body; a mismatch raises
`TypeError`. -/
def pyCall {A : Type} (paramCount argCount : ℕ) (body : Except PyErr A) :
    Except PyErr A :=
  if argCount = paramCount then body else .error .typeError

/-- What one call to `train` leaves behind: the updated model parameters
(type `Θ`, the optimizer update itself is library math), how many batches got
a full forward/loss/backward/optimizer-step pass, how many progress records
were printed, and how many `wandb.log({"training loss": ...})` emissions
happened. -/
structure TrainResult (Θ : Type) where
  θ : Θ
  batchesProcessed : ℕ
  printCount : ℕ
  wandbCount : ℕ
  deriving Repr, DecidableEq

/-- The `for batch_idx, (data, target) in enumerate(train_loader):` loop of
`train`.  Per batch: one optimizer step (`step`), then the
`batch_idx % args.log_interval == 0` check — Python raises
`ZeroDivisionError` when `log_interval` is `0`; inside the branch: print,
then `break` if `dry_run`, else the wandb emission. -/
def trainLoop {Θ : Type} (step : Θ → List Example → Θ) (li : ℤ)
    (dryRun : Bool) : List (List Example) → ℕ → TrainResult Θ →
    Except PyErr (TrainResult Θ)
  | [], _, st => .ok st
  | b :: bs, idx, st =>
    let st1 : TrainResult Θ :=
      { st with θ := step st.θ b, batchesProcessed := st.batchesProcessed + 1 }
    if li = 0 then .error .zeroDivisionError
    else if (idx : ℤ) % li = 0 then
      let st2 : TrainResult Θ := { st1 with printCount := st1.printCount + 1 }
      if dryRun then .ok st2
      else trainLoop step li dryRun bs (idx + 1)
        { st2 with wandbCount := st2.wandbCount + 1 }
    else trainLoop step li dryRun bs (idx + 1) st1

/-- The `train` function: run the batch loop from index 0 on fresh counters.
`step` abstracts `zero_grad` / forward / `nll_loss` / `backward` /
`optimizer.step()` on one batch (external library math, at the learning rate
the optimizer currently holds). -/
def train {Θ : Type} (args : Args) (step : Θ → List Example → Θ)
    (trainBatches : List (List Example)) (θ0 : Θ) :
    Except PyErr (TrainResult Θ) :=
  trainLoop step args.log_interval args.dry_run trainBatches 0 ⟨θ0, 0, 0, 0⟩

/-- The keyword arguments handed to `torch.utils.data.DataLoader`.  Torch's
defaults: no workers, no pinned memory, **no shuffling**. -/
structure LoaderKwargs where
  batch_size : ℕ
  num_workers : ℕ := 0
  pin_memory : Bool := false
  shuffle : Bool := false
  deriving Repr, DecidableEq

/-- `cuda_kwargs = {"num_workers": 1, "pin_memory": True, "shuffle": True}`,
merged into a kwargs dict by `.update`. -/
def cudaUpdate (kw : LoaderKwargs) : LoaderKwargs :=
  { kw with num_workers := 1, pin_memory := true, shuffle := true }

/-- `train_kwargs = {"batch_size": args.batch_size}`, then
`train_kwargs.update(cuda_kwargs)` only `if use_cuda`. -/
def train_kwargs (args : Args) (use_cuda : Bool) : LoaderKwargs :=
  let base : LoaderKwargs := { batch_size := args.batch_size }
  if use_cuda then cudaUpdate base else base

/-- `test_kwargs = {"batch_size": args.test_batch_size}`, then
`test_kwargs.update(cuda_kwargs)` only `if use_cuda`. -/
def test_kwargs (args : Args) (use_cuda : Bool) : LoaderKwargs :=
  let base : LoaderKwargs := { batch_size := args.test_batch_size }
  if use_cuda then cudaUpdate base else base

/-- The batch sequence a `DataLoader` built with `kw` serves over dataset
`ds`: the dataset in its stored order, or permuted by the RNG-drawn
permutation `perm` when `shuffle` is set, cut into `batch_size` chunks. -/
def loaderBatches (kw : LoaderKwargs)
    (perm : List Example → List Example) (ds : List Example) :
    List (List Example) :=
  chunks kw.batch_size (if kw.shuffle then perm ds else ds)

/-- `use_cuda = not args.no_cuda and torch.cuda.is_available()`. -/
def useCuda (args : Args) (cudaAvailable : Bool) : Bool :=
  !args.no_cuda && cudaAvailable

/-- The compute device. -/
inductive Device
  | cuda
  | cpu
  deriving Repr, DecidableEq

/-- `device = torch.device("cuda") if use_cuda else torch.device("cpu")`. -/
def objectiveDevice (args : Args) (cudaAvailable : Bool) : Device :=
  if useCuda args cudaAvailable then .cuda else .cpu

/-- `torch.manual_seed(args.seed)`: the global RNG state is overwritten with
a state determined by the seed alone; whatever state `_g` held before is
discarded. -/
def manualSeed (seed : ℕ) (_g : ℕ) : ℕ :=
  seed

/-- Clamp a raw sampler draw into the unit interval. -/
def unitClamp (u : ℚ) : ℚ :=
  max 0 (min 1 u)

/-- `trial.suggest_float(name, low, high)`: a uniform draw from
`[low, high]`, modelled as `low + (high - low) · u` for a unit-interval
draw `u` taken from the trial's raw randomness. -/
def suggestFloat (low high u : ℚ) : ℚ :=
  low + (high - low) * unitClamp u

/-- `trial.suggest_int(name, low, high)`: a uniform draw from the integers
`low .. high`, modelled from a raw natural draw `u`. -/
def suggestInt (low high u : ℕ) : ℕ :=
  low + u % (high - low + 1)

/-- `lr = trial.suggest_float("lr", 0.00001, 0.001)`. -/
def lrLow : ℚ := 1 / 100000

/-- Upper bound of the learning-rate search range. -/
def lrHigh : ℚ := 1 / 1000

/-- The hyperparameter candidate one trial samples through its two `suggest`
calls, from the trial's raw randomness `(u_lr, u_epochs)`. -/
def sampleCandidate (raw : ℚ × ℕ) : ℚ × ℕ :=
  (suggestFloat lrLow lrHigh raw.1, suggestInt 1 10 raw.2)

/-- The `for epoch in range(epochs):` loop of `objective`, parametric in the
argument count of the `test` call so that the source's call
(`test(model, device, test_loader, epoch)`, four arguments) and the
spec-directed call (three arguments) share one definition.  Per epoch:
`train(...)`, then the `test` call, then `scheduler.step()` — a
`StepLR(step_size=1, gamma)` scheduler, so epoch `e` trains at
`lr * gamma ^ e`.  After the loop the source does `return test_loss`, which
raises `NameError` if the loop body never assigned it. -/
def epochLoop {Θ : Type} (argCount : ℕ) (args : Args)
    (forward : Θ → ℕ → List ℚ) (optStep : ℚ → Θ → List Example → Θ)
    (lr : ℚ) (trainBatches testBatches : List (List Example))
    (testDatasetLen : ℕ) : ℕ → ℕ → Θ → Option ℚ → Except PyErr ℚ
  | 0, _, _, none => .error .nameError
  | 0, _, _, some l => .ok l
  | k + 1, e, θ, _ =>
    match train args (optStep (lr * args.gamma ^ e)) trainBatches θ with
    | .error err => .error err
    | .ok tr =>
      match pyCall test_paramCount argCount
          (test (forward tr.θ) testBatches testDatasetLen) with
      | .error err => .error err
      | .ok out =>
        epochLoop argCount args forward optStep lr trainBatches testBatches
          testDatasetLen k (e + 1) tr.θ (some out.returnedLoss)

/-- The `objective` function, from `parse_args` (already done: `args` is the
parsed namespace) to `return test_loss`, parametric in the argument count of
its `test` call.  `initParams` (weight init of `Net()` from the global RNG
state), `forward` (the CNN), `optStep` (one Adam step at a given learning
rate) and `perm` (the shuffle permutation a shuffling `DataLoader` draws)
are the external library collaborators.  `g` is the torch global RNG state
on entry; `raw` is the trial's sampler randomness.  The `wandb.init` session
open and the optional `torch.save` are metric/file side effects with no
bearing on the returned value. -/
def objectiveWith {Θ : Type} (argCount : ℕ) (cudaAvailable : Bool)
    (initParams : ℕ → Θ) (forward : Θ → ℕ → List ℚ)
    (optStep : ℚ → Θ → List Example → Θ)
    (perm : List Example → List Example)
    (trainSet testSet : List Example)
    (args : Args) (raw : ℚ × ℕ) (g : ℕ) : Except PyErr ℚ :=
  let uc := useCuda args cudaAvailable
  let σ := manualSeed args.seed g
  let lr := suggestFloat lrLow lrHigh raw.1
  let epochs := suggestInt 1 10 raw.2
  let trainBatches := loaderBatches (train_kwargs args uc) perm trainSet
  let testBatches := loaderBatches (test_kwargs args uc) perm testSet
  let θ0 := initParams σ
  epochLoop argCount args forward optStep lr trainBatches testBatches
    testSet.length epochs 0 θ0 none

/-- The source's `objective`: its `test` call passes
`objective_testCallArgCount = 4` arguments. -/
def objective {Θ : Type} (cudaAvailable : Bool) (initParams : ℕ → Θ)
    (forward : Θ → ℕ → List ℚ) (optStep : ℚ → Θ → List Example → Θ)
    (perm : List Example → List Example) (trainSet testSet : List Example)
    (args : Args) (raw : ℚ × ℕ) (g : ℕ) : Except PyErr ℚ :=
  objectiveWith objective_testCallArgCount cudaAvailable initParams forward
    optStep perm trainSet testSet args raw g

/-- Modelled from the spec: §9 directs that the Evaluator takes no epoch
argument and the call site's extra `epoch` argument is a slip, so the
intended `objective` calls `test` with exactly its three parameters.  Only
the argument count differs from `objective`. -/
def objectiveFixed {Θ : Type} (cudaAvailable : Bool) (initParams : ℕ → Θ)
    (forward : Θ → ℕ → List ℚ) (optStep : ℚ → Θ → List Example → Θ)
    (perm : List Example → List Example) (trainSet testSet : List Example)
    (args : Args) (raw : ℚ × ℕ) (g : ℕ) : Except PyErr ℚ :=
  objectiveWith test_paramCount cudaAvailable initParams forward
    optStep perm trainSet testSet args raw g

/-- `study.optimize(objective, n_trials=n)`: run trials `t, t+1, ...`
strictly sequentially; a completed trial is recorded as
`(trial.params, value)`; an exception raised by the objective is re-raised
(the default `catch=()`), aborting the whole run. -/
def runTrials (objFn : ℚ × ℕ → Except PyErr ℚ) (raws : ℕ → ℚ × ℕ) :
    ℕ → ℕ → Except PyErr (List ((ℚ × ℕ) × ℚ))
  | _, 0 => .ok []
  | t, k + 1 =>
    match objFn (raws t) with
    | .error e => .error e
    | .ok l =>
      match runTrials objFn raws (t + 1) k with
      | .error e => .error e
      | .ok rest => .ok ((sampleCandidate (raws t), l) :: rest)

/-- `study.best_trial` for a minimization study: the first trial attaining
the minimum value (Python's `min` keeps the earliest minimum). -/
def bestTrial : List ((ℚ × ℕ) × ℚ) → Option ((ℚ × ℕ) × ℚ)
  | [] => none
  | r :: rs => some (rs.foldl (fun b x => if x.2 < b.2 then x else b) r)

/-- `study.best_params`: the hyperparameters of the best trial. -/
def best_params (results : List ((ℚ × ℕ) × ℚ)) : Option (ℚ × ℕ) :=
  (bestTrial results).map Prod.fst

/-- The observable events of one process run, in program order. -/
inductive Ev
  | studyCreate        -- optuna.create_study()
  | trialStart (t : ℕ) -- study.optimize begins trial t and invokes objective
  | parseArgs          -- parser.parse_args() inside objective
  | usageExit (code : ℕ) -- argparse prints usage and sys.exit(2)
  | seedSet            -- torch.manual_seed(args.seed)
  | sampleLr           -- trial.suggest_float("lr", ...)
  | sampleEpochs       -- trial.suggest_int("epochs", ...)
  | wandbInit          -- wandb.init(...)
  | buildLoaders       -- datasets + DataLoader construction
  | buildModel         -- Net().to(device), Adam, StepLR
  | trainerPass (epoch : ℕ)   -- train(args, model, ...)
  | typeErrorAbort     -- the four-argument test(...) call raises TypeError
  deriving Repr, DecidableEq

/-- Trial work in the sense of the claim: hyperparameter sampling, model
construction, or training. -/
def isTrialWork : Ev → Bool
  | .sampleLr => true
  | .sampleEpochs => true
  | .buildModel => true
  | .trainerPass _ => true
  | _ => false

/-- The events `objective` emits, in source order: `parse_args` first; on an
argparse failure the process exits with usage code 2 and nothing else runs;
on success the trial proceeds and (with the default arguments) always aborts
inside epoch 0, where the Trainer pass completes and the four-argument
`test` call raises `TypeError`. -/
def objectiveEvents (argvOk : Bool) : List Ev :=
  Ev.parseArgs ::
    (if argvOk then
      [Ev.seedSet, Ev.sampleLr, Ev.sampleEpochs, Ev.wandbInit,
       Ev.buildLoaders, Ev.buildModel, Ev.trainerPass 0, Ev.typeErrorAbort]
    else [Ev.usageExit 2])

/-- The events of `main`: `optuna.create_study()`, then trial 0 begins and
invokes `objective`.  No later trial ever starts: both the usage exit and
the `TypeError` abort the run inside trial 0. -/
def mainEvents (argvOk : Bool) : List Ev :=
  Ev.studyCreate :: Ev.trialStart 0 :: objectiveEvents argvOk

/-- The claim of C2 as an ordering property of a trace: every trial start is
preceded by a completed argument parse. -/
def argsParsedBeforeTrials (tr : List Ev) : Prop :=
  ∀ j t, tr.get? j = some (Ev.trialStart t) →
    ∃ i, i < j ∧ tr.get? i = some Ev.parseArgs

/-- The claim of C8 as a property of the loader construction: in every
configuration the training loader serves the shuffle-permuted dataset. -/
def trainingAlwaysShuffled : Prop :=
  ∀ (args : Args) (uc : Bool) (perm : List Example → List Example)
    (ds : List Example),
    loaderBatches (train_kwargs args uc) perm ds =
      chunks args.batch_size (perm ds)

/-- Cutting a list into non-empty chunks and concatenating them back gives
the list: the loader serves every example exactly once. -/
theorem chunks_flatten {α : Type} (bs : ℕ) (hbs : bs ≠ 0) (l : List α) :
    (chunks bs l).flatten = l := by
  generalize hn : l.length = n
  induction n using Nat.strong_induction_on generalizing l with
  | _ n ih =>
    match l, hn with
    | [], _ => simp [chunks]
    | x :: xs, hn =>
      rw [chunks, if_neg hbs, List.flatten_cons,
        ih ((x :: xs).drop bs).length (by subst hn; simp; omega) _ rfl,
        List.take_append_drop]

/-- The accumulator loop of `test` computes the total of the batch losses
and the total of the batch correct-counts. -/
theorem testLoop_spec (m : ℕ → List ℚ) (batches : List (List Example)) :
    ∀ (tl : ℚ) (c : ℕ),
      testLoop m batches tl c =
        (tl + (batches.map (batchLoss m)).sum,
         c + (batches.map (batchCorrect m)).sum) := by
  induction batches with
  | nil => intro tl c; simp [testLoop]
  | cons b rest ih =>
    intro tl c
    simp [testLoop, ih, add_assoc]

/-- Over the batches of a chunked dataset the summed batch losses are the
summed per-example losses of the dataset. -/
theorem sum_batchLoss_chunks (m : ℕ → List ℚ) (bs : ℕ) (hbs : bs ≠ 0)
    (ds : List Example) :
    ((chunks bs ds).map (batchLoss m)).sum =
      (ds.map (fun e => nll (m e.input) e.label)).sum := by
  unfold batchLoss
  calc ((chunks bs ds).map
          (fun b => (b.map (fun e => nll (m e.input) e.label)).sum)).sum
      = (((chunks bs ds).map
          (List.map (fun e => nll (m e.input) e.label))).map List.sum).sum := by
        rw [List.map_map]; rfl
    _ = (((chunks bs ds).map
          (List.map (fun e => nll (m e.input) e.label))).flatten).sum :=
        (List.sum_flatten).symm
    _ = (((chunks bs ds).flatten).map (fun e => nll (m e.input) e.label)).sum := by
        rw [List.map_flatten]
    _ = (ds.map (fun e => nll (m e.input) e.label)).sum := by
        rw [chunks_flatten bs hbs]

/-- Over the batches of a chunked dataset the summed correct-counts are the
dataset's count of correctly predicted examples. -/
theorem sum_batchCorrect_chunks (m : ℕ → List ℚ) (bs : ℕ) (hbs : bs ≠ 0)
    (ds : List Example) :
    ((chunks bs ds).map (batchCorrect m)).sum =
      ds.countP (fun e => argmaxIdx (m e.input) == e.label) := by
  unfold batchCorrect
  rw [← chunks_flatten bs hbs ds, List.countP_flatten, chunks_flatten bs hbs]

/-- Closed form of `test` on the batches of a chunked non-empty dataset:
mean loss is the summed per-example loss over the divisor
`len(test_loader.dataset)`, and the emitted accuracy is
`100 * correct / len(test_loader.dataset)`. -/
theorem test_chunks_eq (m : ℕ → List ℚ) (ds : List Example) (bs : ℕ)
    (hbs : bs ≠ 0) (hne : ds ≠ []) :
    test m (chunks bs ds) ds.length =
      Except.ok
        { returnedLoss :=
            (ds.map (fun e => nll (m e.input) e.label)).sum / (ds.length : ℚ),
          wandbTestAcc :=
            100 * ((ds.countP
              (fun e => argmaxIdx (m e.input) == e.label) : ℕ) : ℚ) /
              (ds.length : ℚ),
          wandbTestLoss :=
            (ds.map (fun e => nll (m e.input) e.label)).sum / (ds.length : ℚ) } := by
  have hlen : ds.length ≠ 0 := by
    simpa [List.length_eq_zero] using hne
  simp [test, testLoop_spec, hlen, sum_batchLoss_chunks m bs hbs,
    sum_batchCorrect_chunks m bs hbs]

/-- With a non-zero `log_interval` the Trainer's batch loop is total, and
its print counter never decreases. -/
theorem trainLoop_total {Θ : Type} (step : Θ → List Example → Θ) (li : ℤ)
    (dr : Bool) (hli : li ≠ 0) :
    ∀ (batches : List (List Example)) (idx : ℕ) (st : TrainResult Θ),
      ∃ st', trainLoop step li dr batches idx st = .ok st' ∧
        st.printCount ≤ st'.printCount := by
  intro batches
  induction batches with
  | nil => exact fun idx st => ⟨st, rfl, le_refl _⟩
  | cons b rest ih =>
    intro idx st
    simp only [trainLoop, if_neg hli]
    by_cases hmod : (idx : ℤ) % li = 0
    · rw [if_pos hmod]
      by_cases hdr : dr
      · rw [if_pos hdr]
        exact ⟨_, rfl, Nat.le_succ _⟩
      · rw [if_neg hdr]
        obtain ⟨st', h1, h2⟩ := ih (idx + 1) _
        exact ⟨st', h1, le_trans (Nat.le_succ _) h2⟩
    · rw [if_neg hmod]
      obtain ⟨st', h1, h2⟩ := ih (idx + 1) _
      exact ⟨st', h1, h2⟩

/-- With a positive dataset length, `test` returns its mean-loss record. -/
theorem test_ok (m : ℕ → List ℚ) (batches : List (List Example)) (n : ℕ)
    (hn : n ≠ 0) :
    test m batches n =
      .ok ⟨(testLoop m batches 0 0).1 / (n : ℚ),
        100 * ((testLoop m batches 0 0).2 : ℚ) / (n : ℚ),
        (testLoop m batches 0 0).1 / (n : ℚ)⟩ := by
  simp only [test]
  rw [if_neg hn]

/-- Calling `test` with the source call site's four arguments against its
three parameters raises `TypeError`, whatever the body would compute. -/
theorem pyCall_mismatch {A : Type} (body : Except PyErr A) :
    pyCall test_paramCount objective_testCallArgCount body =
      .error .typeError := by
  simp [pyCall, test_paramCount, objective_testCallArgCount]

/-- With at least one epoch to run and a non-zero `log_interval`, the
source's epoch loop completes its Trainer pass and then dies at the
four-argument `test` call. -/
theorem epochLoop_src_typeError {Θ : Type} (args : Args)
    (forward : Θ → ℕ → List ℚ) (optStep : ℚ → Θ → List Example → Θ)
    (lr : ℚ) (trainB testB : List (List Example)) (n : ℕ)
    (k e : ℕ) (θ : Θ) (last : Option ℚ) (hli : args.log_interval ≠ 0) :
    epochLoop objective_testCallArgCount args forward optStep lr trainB testB
      n (k + 1) e θ last = .error .typeError := by
  obtain ⟨st, hst, -⟩ :=
    trainLoop_total (optStep (lr * args.gamma ^ e)) args.log_interval
      args.dry_run hli trainB 0 ⟨θ, 0, 0, 0⟩
  simp only [epochLoop, train, hst, pyCall_mismatch]

/-- The epoch count a trial samples, written as a successor. -/
theorem suggestInt_epochs_succ (u : ℕ) :
    suggestInt 1 10 u = u % 10 + 1 := by
  simp [suggestInt]
  omega

/-- The source's `objective` never returns: it raises `TypeError` at the
first Evaluator call of every trial (provided the Trainer's modulo check
does not die first, i.e. `log_interval ≠ 0`). -/
theorem objective_typeError {Θ : Type} (cudaAvailable : Bool)
    (initParams : ℕ → Θ) (forward : Θ → ℕ → List ℚ)
    (optStep : ℚ → Θ → List Example → Θ)
    (perm : List Example → List Example) (trainSet testSet : List Example)
    (args : Args) (raw : ℚ × ℕ) (g : ℕ) (hli : args.log_interval ≠ 0) :
    objective cudaAvailable initParams forward optStep perm trainSet testSet
      args raw g = .error .typeError := by
  simp only [objective, objectiveWith, suggestInt_epochs_succ]
  exact epochLoop_src_typeError args forward optStep _ _ _ _ _ _ _ _ hli

/-- `pyCall` with a matching argument count runs the body. -/
theorem pyCall_match {A : Type} (body : Except PyErr A) :
    pyCall test_paramCount test_paramCount body = body := by
  simp [pyCall]

/-- With the spec-directed three-argument Evaluator call, a non-zero
`log_interval` and a positive test dataset length, every remaining epoch
completes and the loop returns a loss. -/
theorem epochLoop_fixed_ok {Θ : Type} (args : Args)
    (forward : Θ → ℕ → List ℚ) (optStep : ℚ → Θ → List Example → Θ)
    (lr : ℚ) (trainB testB : List (List Example)) (n : ℕ)
    (hli : args.log_interval ≠ 0) (hn : n ≠ 0) :
    ∀ (k e : ℕ) (θ : Θ) (last : Option ℚ), (k ≠ 0 ∨ last ≠ none) →
      ∃ l, epochLoop test_paramCount args forward optStep lr trainB testB n
        k e θ last = .ok l := by
  intro k
  induction k with
  | zero =>
    intro e θ last hor
    match last, hor with
    | some l, _ => exact ⟨l, rfl⟩
    | none, hor =>
      rcases hor with h | h
      · exact absurd rfl h
      · exact absurd rfl h
  | succ k ih =>
    intro e θ last _
    obtain ⟨st, hst, -⟩ :=
      trainLoop_total (optStep (lr * args.gamma ^ e)) args.log_interval
        args.dry_run hli trainB 0 ⟨θ, 0, 0, 0⟩
    obtain ⟨l, hl⟩ := ih (e + 1) st.θ
      (some ((testLoop (forward st.θ) testB 0 0).1 / (n : ℚ)))
      (Or.inr (by simp))
    refine ⟨l, ?_⟩
    simp only [epochLoop, train, hst, pyCall_match,
      test_ok (forward st.θ) testB n hn]
    exact hl

/-- With a non-zero `log_interval` and a non-empty test dataset the
spec-directed objective returns a loss for every trial. -/
theorem objectiveFixed_ok {Θ : Type} (cudaAvailable : Bool)
    (initParams : ℕ → Θ) (forward : Θ → ℕ → List ℚ)
    (optStep : ℚ → Θ → List Example → Θ)
    (perm : List Example → List Example) (trainSet testSet : List Example)
    (args : Args) (raw : ℚ × ℕ) (g : ℕ)
    (hli : args.log_interval ≠ 0) (hts : testSet ≠ []) :
    ∃ l, objectiveFixed cudaAvailable initParams forward optStep perm
      trainSet testSet args raw g = .ok l := by
  have hlen : testSet.length ≠ 0 := by
    simpa [List.length_eq_zero] using hts
  simp only [objectiveFixed, objectiveWith]
  exact epochLoop_fixed_ok args forward optStep _ _ _ _ hli hlen
    (suggestInt 1 10 raw.2) 0 _ none
    (Or.inl (by simp [suggestInt_epochs_succ]))

/-- If the objective raises on the first trial attempted, the whole
`optimize` run aborts with that exception. -/
theorem runTrials_error (objFn : ℚ × ℕ → Except PyErr ℚ)
    (raws : ℕ → ℚ × ℕ) (t k : ℕ) (e : PyErr)
    (h : objFn (raws t) = .error e) :
    runTrials objFn raws t (k + 1) = .error e := by
  simp [runTrials, h]

/-- If every trial's objective returns a value, `optimize` completes all
`k` trials in order, recording one (params, value) pair per trial, each
with sampler-produced parameters. -/
theorem runTrials_ok (objFn : ℚ × ℕ → Except PyErr ℚ) (raws : ℕ → ℚ × ℕ)
    (h : ∀ t, ∃ l, objFn (raws t) = .ok l) :
    ∀ (k t : ℕ), ∃ results, runTrials objFn raws t k = .ok results ∧
      results.length = k ∧
      ∀ r ∈ results, ∃ u, r.1 = sampleCandidate u := by
  intro k
  induction k with
  | zero => exact fun t => ⟨[], rfl, rfl, by simp⟩
  | succ k ih =>
    intro t
    obtain ⟨l, hl⟩ := h t
    obtain ⟨rest, h1, h2, h3⟩ := ih (t + 1)
    refine ⟨(sampleCandidate (raws t), l) :: rest, ?_, by simp [h2], ?_⟩
    · simp [runTrials, hl, h1]
    · intro r hr
      rcases List.mem_cons.mp hr with hr | hr
      · exact ⟨raws t, by rw [hr]⟩
      · exact h3 r hr

/-- The clamped unit draw lies in the unit interval. -/
theorem unitClamp_mem (u : ℚ) : 0 ≤ unitClamp u ∧ unitClamp u ≤ 1 :=
  ⟨le_max_left 0 _, max_le (by norm_num) (min_le_left 1 u)⟩

/-- Every candidate the two `suggest` calls can produce has
`lr ∈ (0, 0.001]` (indeed `lr ∈ [0.00001, 0.001]`) and `epochs ∈ [1, 10]`. -/
theorem sampleCandidate_range (u : ℚ × ℕ) :
    0 < (sampleCandidate u).1 ∧ (sampleCandidate u).1 ≤ lrHigh ∧
    1 ≤ (sampleCandidate u).2 ∧ (sampleCandidate u).2 ≤ 10 := by
  obtain ⟨h0, h1⟩ := unitClamp_mem u.1
  refine ⟨?_, ?_, ?_, ?_⟩
  · simp only [sampleCandidate, suggestFloat, lrLow, lrHigh]
    nlinarith
  · simp only [sampleCandidate, suggestFloat, lrLow, lrHigh]
    nlinarith
  · simp only [sampleCandidate, suggestInt]
    omega
  · simp only [sampleCandidate, suggestInt]
    have : u.2 % (10 - 1 + 1) < 10 := Nat.mod_lt _ (by norm_num)
    omega

/-- The fold `bestTrial` uses computes a minimum: the result is either the
seed or a list element, never exceeds the seed, and never exceeds any list
element. -/
theorem foldl_best_spec (rs : List ((ℚ × ℕ) × ℚ)) :
    ∀ b0, (rs.foldl (fun b x => if x.2 < b.2 then x else b) b0 = b0 ∨
        rs.foldl (fun b x => if x.2 < b.2 then x else b) b0 ∈ rs) ∧
      (rs.foldl (fun b x => if x.2 < b.2 then x else b) b0).2 ≤ b0.2 ∧
      ∀ x ∈ rs,
        (rs.foldl (fun b x => if x.2 < b.2 then x else b) b0).2 ≤ x.2 := by
  induction rs with
  | nil => exact fun b0 => ⟨Or.inl rfl, le_refl _, by simp⟩
  | cons a rest ih =>
    intro b0
    simp only [List.foldl_cons]
    by_cases hx : a.2 < b0.2
    · rw [if_pos hx]
      obtain ⟨hmem, hle, hall⟩ := ih a
      refine ⟨?_, le_trans hle hx.le, ?_⟩
      · rcases hmem with h | h
        · exact Or.inr (by rw [h]; exact List.mem_cons_self a rest)
        · exact Or.inr (List.mem_cons_of_mem a h)
      · intro x hxm
        rcases List.mem_cons.mp hxm with rfl | hxm
        · exact hle
        · exact hall x hxm
    · rw [if_neg hx]
      obtain ⟨hmem, hle, hall⟩ := ih b0
      refine ⟨?_, hle, ?_⟩
      · rcases hmem with h | h
        · exact Or.inl h
        · exact Or.inr (List.mem_cons_of_mem a h)
      · intro x hxm
        rcases List.mem_cons.mp hxm with rfl | hxm
        · exact le_trans hle (not_lt.mp hx)
        · exact hall x hxm

/-- On a non-empty result list `best_params` is the parameter pair of a
trial attaining the minimum recorded loss. -/
theorem bestTrial_spec (r : (ℚ × ℕ) × ℚ) (rs : List ((ℚ × ℕ) × ℚ)) :
    ∃ b, bestTrial (r :: rs) = some b ∧ b ∈ r :: rs ∧
      best_params (r :: rs) = some b.1 ∧ ∀ x ∈ r :: rs, b.2 ≤ x.2 := by
  obtain ⟨hmem, hle, hall⟩ := foldl_best_spec rs r
  refine ⟨_, rfl, ?_, rfl, ?_⟩
  · rcases hmem with h | h
    · rw [h]; exact List.mem_cons_self r rs
    · exact List.mem_cons_of_mem r h
  · intro x hx
    rcases List.mem_cons.mp hx with rfl | hx
    · exact hle
    · exact hall x hx

end TrainPy

namespace TrainPy

/-- C1: the claim says every trial runs, per epoch, Trainer → Evaluator →
Scheduler and returns the last epoch's evaluation loss.  The code instead
raises `TypeError` at the very first Evaluator call — `test` has three
parameters but is called with four — so no epoch ever completes and no loss
is ever returned.  This theorem evaluates the embedded source at the failing
input: for every trial (any hyperparameter randomness `raw`, any seed, any
data, any `log_interval ≠ 0`), `objective` aborts with `TypeError`. -/
theorem C1_objective_raises_typeError {Θ : Type} (cudaAvailable : Bool)
    (initParams : ℕ → Θ) (forward : Θ → ℕ → List ℚ)
    (optStep : ℚ → Θ → List Example → Θ)
    (perm : List Example → List Example) (trainSet testSet : List Example)
    (args : Args) (raw : ℚ × ℕ) (g : ℕ) (hli : args.log_interval ≠ 0) :
    objective cudaAvailable initParams forward optStep perm trainSet testSet
      args raw g = .error .typeError :=
  objective_typeError cudaAvailable initParams forward optStep perm trainSet
    testSet args raw g hli

/-- Witness for C1 at a concrete input: default CLI arguments, a trivial
one-class model, one training example, one test example. -/
theorem C1_objective_raises_typeError_witness :
    ({} : Args).log_interval ≠ 0 ∧
    objective (Θ := ℕ) false (fun s => s) (fun _ _ => [0])
      (fun _ θ _ => θ) id [⟨0, 0⟩] [⟨0, 0⟩] {} (0, 0) 0 =
      .error .typeError :=
  ⟨by decide,
    C1_objective_raises_typeError false (fun s => s) (fun _ _ => [0])
      (fun _ θ _ => θ) id [⟨0, 0⟩] [⟨0, 0⟩] {} (0, 0) 0 (by decide)⟩

/-- C2 counterexample: in the actual run, `optuna` creates the study and
starts trial 0 *before* `parse_args` ever runs (parsing happens inside
`objective`), so invalid arguments are not detected before a trial starts:
the trace with invalid argv starts trial 0 at position 1 and only parses at
position 2. -/
theorem C2_counterexample : ¬ argsParsedBeforeTrials (mainEvents false) := by
  intro h
  obtain ⟨i, hi, hget⟩ := h 1 0 rfl
  interval_cases i
  simp [mainEvents, objectiveEvents] at hget

/-- C2 amended: argument parsing happens inside the first trial rather than
before it, but it still completes before any trial *work*: with invalid
argv the run performs no sampling, no model construction and no Trainer
pass and exits through the argparse usage exit with status 2 (non-zero);
with valid argv, `parse_args` precedes the sampling, the model construction
and the first Trainer pass in the trace. -/
theorem C2_amended_ordering :
    (mainEvents false).filter isTrialWork = [] ∧
    Ev.usageExit 2 ∈ mainEvents false ∧
    (mainEvents true).indexOf Ev.parseArgs <
      (mainEvents true).indexOf Ev.sampleLr ∧
    (mainEvents true).indexOf Ev.parseArgs <
      (mainEvents true).indexOf Ev.buildModel ∧
    (mainEvents true).indexOf Ev.parseArgs <
      (mainEvents true).indexOf (Ev.trainerPass 0) := by
  refine ⟨by decide, by decide, by decide, by decide, by decide⟩

/-- C8 counterexample: the claim says the training loader shuffles in every
configuration.  It does not: `shuffle: True` lives only in `cuda_kwargs`,
which is merged only `if use_cuda`, so in the CPU configuration the loader
serves the fixed dataset order — here a concrete two-example dataset whose
reversal the loader visibly does not serve. -/
theorem C8_counterexample : ¬ trainingAlwaysShuffled := by
  intro h
  have hc : chunks 64 [(⟨0, 0⟩ : Example), ⟨1, 1⟩] =
      chunks 64 [(⟨1, 1⟩ : Example), ⟨0, 0⟩] :=
    h {} false (fun l => l.reverse) [⟨0, 0⟩, ⟨1, 1⟩]
  have hds := congrArg List.flatten hc
  rw [chunks_flatten 64 (by decide), chunks_flatten 64 (by decide)] at hds
  exact absurd hds (by decide)

/-- C8 amended: the training loader serves shuffled batches exactly when
`use_cuda` holds (accelerator available and not disabled): with the cuda
kwargs merged it serves the permuted dataset, and in the CPU configuration
it serves the dataset in fixed stored order. -/
theorem C8_amended_shuffle_only_with_cuda (args : Args)
    (perm : List Example → List Example) (ds : List Example) :
    loaderBatches (train_kwargs args true) perm ds =
      chunks args.batch_size (perm ds) ∧
    loaderBatches (train_kwargs args false) perm ds =
      chunks args.batch_size ds := by
  exact ⟨rfl, rfl⟩

/-- C5: determinism of a seeded CPU trial.  The objective's result is a
function of the seed, the hyperparameter randomness and the data alone: the
ambient torch RNG state `g` at trial entry is overwritten by
`torch.manual_seed(args.seed)`, so two runs with identical arguments agree
exactly — for the spec-directed objective (three-argument Evaluator call)
they return the identical final evaluation loss, and the source's objective
agrees between runs as well. -/
theorem C5_seeded_trial_deterministic {Θ : Type} (cudaAvailable : Bool)
    (initParams : ℕ → Θ) (forward : Θ → ℕ → List ℚ)
    (optStep : ℚ → Θ → List Example → Θ)
    (perm : List Example → List Example) (trainSet testSet : List Example)
    (args : Args) (raw : ℚ × ℕ) (g1 g2 : ℕ)
    (_hcpu : objectiveDevice args cudaAvailable = Device.cpu) :
    objectiveFixed cudaAvailable initParams forward optStep perm trainSet
        testSet args raw g1 =
      objectiveFixed cudaAvailable initParams forward optStep perm trainSet
        testSet args raw g2 ∧
    objective cudaAvailable initParams forward optStep perm trainSet
        testSet args raw g1 =
      objective cudaAvailable initParams forward optStep perm trainSet
        testSet args raw g2 :=
  ⟨rfl, rfl⟩

/-- Witness for C5 at a concrete input: seed 1 (the default), two different
ambient RNG states 0 and 987654, CPU device. -/
theorem C5_seeded_trial_deterministic_witness :
    objectiveDevice {} false = Device.cpu ∧
    (objectiveFixed (Θ := ℕ) false (fun s => s) (fun _ _ => [0])
        (fun _ θ _ => θ) id [⟨0, 0⟩] [⟨0, 0⟩] {} (0, 0) 0 =
      objectiveFixed (Θ := ℕ) false (fun s => s) (fun _ _ => [0])
        (fun _ θ _ => θ) id [⟨0, 0⟩] [⟨0, 0⟩] {} (0, 0) 987654 ∧
    objective (Θ := ℕ) false (fun s => s) (fun _ _ => [0])
        (fun _ θ _ => θ) id [⟨0, 0⟩] [⟨0, 0⟩] {} (0, 0) 0 =
      objective (Θ := ℕ) false (fun s => s) (fun _ _ => [0])
        (fun _ θ _ => θ) id [⟨0, 0⟩] [⟨0, 0⟩] {} (0, 0) 987654) :=
  ⟨by decide,
    C5_seeded_trial_deterministic false (fun s => s) (fun _ _ => [0])
      (fun _ θ _ => θ) id [⟨0, 0⟩] [⟨0, 0⟩] {} (0, 0) 0 987654 (by decide)⟩

/-- C3: over the batches of a non-empty chunked test dataset, `test` (which
only reads the model — no parameter update is possible) accumulates the
summed per-example loss and the count of examples whose argmax prediction
equals the label, returns mean loss `sum / total_example_count`, and emits
`100 * correct / total_example_count` as the accuracy percentage. -/
theorem C3_test_mean_loss_and_accuracy (m : ℕ → List ℚ) (ds : List Example)
    (bs : ℕ) (hbs : bs ≠ 0) (hne : ds ≠ []) :
    test m (chunks bs ds) ds.length =
      Except.ok
        { returnedLoss :=
            (ds.map (fun e => nll (m e.input) e.label)).sum / (ds.length : ℚ),
          wandbTestAcc :=
            100 * ((ds.countP
              (fun e => argmaxIdx (m e.input) == e.label) : ℕ) : ℚ) /
              (ds.length : ℚ),
          wandbTestLoss :=
            (ds.map (fun e => nll (m e.input) e.label)).sum /
              (ds.length : ℚ) } :=
  test_chunks_eq m ds bs hbs hne

/-- Witness for C3 at a concrete input: a constant model predicting class 0,
a two-example dataset of which exactly one is labelled 0, batch size 1. -/
theorem C3_test_mean_loss_and_accuracy_witness :
    ((1 : ℕ) ≠ 0 ∧ ([⟨0, 0⟩, ⟨1, 1⟩] : List Example) ≠ []) ∧
    test (fun _ => [0, -1]) (chunks 1 [⟨0, 0⟩, ⟨1, 1⟩])
        ([⟨0, 0⟩, ⟨1, 1⟩] : List Example).length =
      Except.ok
        { returnedLoss :=
            (([⟨0, 0⟩, ⟨1, 1⟩] : List Example).map
              (fun e => nll ((fun _ => [0, -1]) e.input) e.label)).sum /
              ((([⟨0, 0⟩, ⟨1, 1⟩] : List Example).length) : ℚ),
          wandbTestAcc :=
            100 * ((([⟨0, 0⟩, ⟨1, 1⟩] : List Example).countP
              (fun e => argmaxIdx ((fun _ => [0, -1]) e.input) == e.label)
                : ℕ) : ℚ) /
              ((([⟨0, 0⟩, ⟨1, 1⟩] : List Example).length) : ℚ),
          wandbTestLoss :=
            (([⟨0, 0⟩, ⟨1, 1⟩] : List Example).map
              (fun e => nll ((fun _ => [0, -1]) e.input) e.label)).sum /
              ((([⟨0, 0⟩, ⟨1, 1⟩] : List Example).length) : ℚ) } :=
  ⟨⟨by decide, by decide⟩,
    C3_test_mean_loss_and_accuracy (fun _ => [0, -1]) [⟨0, 0⟩, ⟨1, 1⟩] 1
      (by decide) (by decide)⟩

/-- C7: for a completed Evaluator pass over a non-empty chunked dataset,
with a non-negative per-example loss, the emitted accuracy percentage lies
in `[0, 100]` and the returned mean loss is non-negative. -/
theorem C7_accuracy_bounds_and_nonneg_loss (m : ℕ → List ℚ)
    (ds : List Example) (bs : ℕ) (hbs : bs ≠ 0) (hne : ds ≠ [])
    (hnn : ∀ e ∈ ds, 0 ≤ nll (m e.input) e.label) :
    ∃ out, test m (chunks bs ds) ds.length = .ok out ∧
      0 ≤ out.wandbTestAcc ∧ out.wandbTestAcc ≤ 100 ∧
      0 ≤ out.returnedLoss := by
  have hN : (0 : ℚ) < (ds.length : ℚ) := by
    have := List.length_pos.mpr hne
    exact_mod_cast this
  refine ⟨_, test_chunks_eq m ds bs hbs hne, ?_, ?_, ?_⟩
  · exact div_nonneg (by positivity) hN.le
  · rw [div_le_iff₀ hN]
    have hc : ((ds.countP
        (fun e => argmaxIdx (m e.input) == e.label) : ℕ) : ℚ) ≤
        (ds.length : ℚ) := by
      exact_mod_cast List.countP_le_length _
    nlinarith
  · refine div_nonneg (List.sum_nonneg ?_) hN.le
    intro x hx
    obtain ⟨e, he, rfl⟩ := List.mem_map.mp hx
    exact hnn e he

/-- Witness for C7 at a concrete input: a one-example dataset with a
zero-loss model. -/
theorem C7_accuracy_bounds_and_nonneg_loss_witness :
    ((1 : ℕ) ≠ 0 ∧ ([⟨0, 0⟩] : List Example) ≠ [] ∧
      (∀ e ∈ ([⟨0, 0⟩] : List Example),
        0 ≤ nll ((fun _ => [0]) e.input) e.label)) ∧
    (∃ out, test (fun _ => [0]) (chunks 1 [⟨0, 0⟩])
        ([⟨0, 0⟩] : List Example).length = .ok out ∧
      0 ≤ out.wandbTestAcc ∧ out.wandbTestAcc ≤ 100 ∧
      0 ≤ out.returnedLoss) :=
  ⟨⟨by decide, by decide, by decide⟩,
    C7_accuracy_bounds_and_nonneg_loss (fun _ => [0]) [⟨0, 0⟩] 1
      (by decide) (by decide) (by decide)⟩

/-- C9: the two divisions by `len(test_loader.dataset)` in `test` are
unguarded: on an empty test dataset (whose loader serves no batches and
whose length is 0) `test` raises `ZeroDivisionError`; with a positive
dataset length `test` always returns a value — the error branch is
unreachable. -/
theorem C9_unguarded_divisions (m : ℕ → List ℚ) (bs : ℕ)
    (batches : List (List Example)) (n : ℕ) :
    test m (chunks bs ([] : List Example)) ([] : List Example).length =
      .error .zeroDivisionError ∧
    (0 < n → ∃ out, test m batches n = .ok out) := by
  constructor
  · simp [test, chunks, testLoop]
  · intro hn
    refine ⟨⟨(testLoop m batches 0 0).1 / (n : ℚ),
      100 * ((testLoop m batches 0 0).2 : ℚ) / (n : ℚ),
      (testLoop m batches 0 0).1 / (n : ℚ)⟩, ?_⟩
    simp only [test]
    rw [if_neg (by omega)]

/-- Witness for C9 at a concrete input: the empty dataset errors, a
one-example dataset evaluates. -/
theorem C9_unguarded_divisions_witness :
    (test (fun _ => [0]) (chunks 2 ([] : List Example))
        ([] : List Example).length = .error .zeroDivisionError) ∧
    ((0 : ℕ) < 1 ∧
      ∃ out, test (fun _ => [0]) [[⟨0, 0⟩]] 1 = .ok out) :=
  ⟨(C9_unguarded_divisions (fun _ => [0]) 2 [[⟨0, 0⟩]] 1).1, by decide,
    (C9_unguarded_divisions (fun _ => [0]) 2 [[⟨0, 0⟩]] 1).2 (by decide)⟩

/-- C6: in dry-run mode (with `log_interval ≥ 1`, and a non-empty loader)
one call to `train` gives exactly one batch its full
forward/loss/backward/optimizer-step pass and then returns, and the
wandb-emission step of the periodic-logging branch runs at most once (in
fact the `break` precedes it, so it never runs). -/
theorem C6_dry_run_one_batch {Θ : Type} (args : Args)
    (step : Θ → List Example → Θ) (b : List Example)
    (bs : List (List Example)) (θ0 : Θ)
    (hdr : args.dry_run = true) (hli : 1 ≤ args.log_interval) :
    ∃ st, train args step (b :: bs) θ0 = .ok st ∧
      st.batchesProcessed = 1 ∧ st.wandbCount ≤ 1 := by
  have hne : args.log_interval ≠ 0 := by omega
  refine ⟨⟨step θ0 b, 1, 1, 0⟩, ?_, rfl, Nat.zero_le 1⟩
  simp [train, trainLoop, hne, hdr]

/-- Witness for C6 at a concrete input: dry-run arguments, default
log interval, a single-batch loader. -/
theorem C6_dry_run_one_batch_witness :
    (({ dry_run := true } : Args).dry_run = true ∧
      1 ≤ ({ dry_run := true } : Args).log_interval) ∧
    (∃ st, train ({ dry_run := true } : Args) (fun (θ : ℕ) _ => θ)
        [[⟨0, 0⟩], [⟨1, 1⟩]] 0 = .ok st ∧
      st.batchesProcessed = 1 ∧ st.wandbCount ≤ 1) :=
  ⟨⟨by decide, by decide⟩,
    C6_dry_run_one_batch { dry_run := true } (fun (θ : ℕ) _ => θ)
      [⟨0, 0⟩] [[⟨1, 1⟩]] 0 (by decide) (by decide)⟩

/-- C10: the Trainer's `batch_idx % args.log_interval == 0` check has no
guard: with `log_interval = 0` (which the CLI accepts — `type=int` allows
any integer) the first batch raises `ZeroDivisionError`; with
`log_interval ≥ 1` the loop is total and the first batch, index 0, always
takes the logging branch. -/
theorem C10_log_interval_guard {Θ : Type} (args : Args)
    (step : Θ → List Example → Θ) (b : List Example)
    (bs : List (List Example)) (θ0 : Θ) :
    (args.log_interval = 0 →
      train args step (b :: bs) θ0 = .error .zeroDivisionError) ∧
    (1 ≤ args.log_interval →
      ∃ st, train args step (b :: bs) θ0 = .ok st ∧ 1 ≤ st.printCount) := by
  constructor
  · intro h0
    simp [train, trainLoop, h0]
  · intro hli
    have hne : args.log_interval ≠ 0 := by omega
    by_cases hdr : args.dry_run = true
    · exact ⟨⟨step θ0 b, 1, 1, 0⟩, by simp [train, trainLoop, hne, hdr],
        le_refl 1⟩
    · rw [Bool.not_eq_true] at hdr
      obtain ⟨st', h1, h2⟩ :=
        trainLoop_total step args.log_interval args.dry_run hne bs 1
          ⟨step θ0 b, 1, 1, 1⟩
      rw [hdr] at h1
      exact ⟨st', by simp [train, trainLoop, hne, hdr, h1], h2⟩

/-- Witness for C10 at concrete inputs: `--log-interval 0` dies on the
first batch; the default log interval 10 runs to completion and logs the
first batch. -/
theorem C10_log_interval_guard_witness :
    (({ log_interval := 0 } : Args).log_interval = 0 ∧
      train ({ log_interval := 0 } : Args) (fun (θ : ℕ) _ => θ)
        [[⟨0, 0⟩]] 0 = .error .zeroDivisionError) ∧
    (1 ≤ ({} : Args).log_interval ∧
      ∃ st, train ({} : Args) (fun (θ : ℕ) _ => θ) [[⟨0, 0⟩]] 0 = .ok st ∧
        1 ≤ st.printCount) :=
  ⟨⟨rfl, (C10_log_interval_guard { log_interval := 0 }
      (fun (θ : ℕ) _ => θ) [⟨0, 0⟩] [] 0).1 rfl⟩,
    by decide,
    (C10_log_interval_guard {} (fun (θ : ℕ) _ => θ) [⟨0, 0⟩] [] 0).2
      (by decide)⟩

/-- C4: evaluation at the failing input, plus the intended behaviour.  As
written the run aborts: whatever the sampler stream, the first trial's
objective raises `TypeError` (the four-argument `test` call), so
`study.optimize(objective, n_trials=5)` yields an error and zero Trial
Results instead of five.  With the spec-directed Evaluator call
(`objectiveFixed`) the same Search Controller produces exactly 5 results,
each with a learning rate in `(0, 0.001]` and an epoch count in `[1, 10]`,
and `best_params` equals the parameters of a minimum-loss trial. -/
theorem C4_five_trials_and_best_params {Θ : Type} (cudaAvailable : Bool)
    (initParams : ℕ → Θ) (forward : Θ → ℕ → List ℚ)
    (optStep : ℚ → Θ → List Example → Θ)
    (perm : List Example → List Example) (trainSet testSet : List Example)
    (args : Args) (raws : ℕ → ℚ × ℕ) (g : ℕ)
    (hli : args.log_interval ≠ 0) (hts : testSet ≠ []) :
    runTrials (fun raw => objective cudaAvailable initParams forward optStep
      perm trainSet testSet args raw g) raws 0 5 = .error .typeError ∧
    ∃ results, runTrials (fun raw => objectiveFixed cudaAvailable initParams
        forward optStep perm trainSet testSet args raw g) raws 0 5 =
          .ok results ∧
      results.length = 5 ∧
      (∀ r ∈ results,
        0 < r.1.1 ∧ r.1.1 ≤ lrHigh ∧ 1 ≤ r.1.2 ∧ r.1.2 ≤ 10) ∧
      ∃ b ∈ results, best_params results = some b.1 ∧
        ∀ r ∈ results, b.2 ≤ r.2 := by
  constructor
  · exact runTrials_error _ raws 0 4 _
      (objective_typeError cudaAvailable initParams forward optStep perm
        trainSet testSet args (raws 0) g hli)
  · obtain ⟨results, h1, h2, h3⟩ := runTrials_ok
      (fun raw => objectiveFixed cudaAvailable initParams forward optStep
        perm trainSet testSet args raw g) raws
      (fun t => objectiveFixed_ok cudaAvailable initParams forward optStep
        perm trainSet testSet args (raws t) g hli hts) 5 0
    refine ⟨results, h1, h2, ?_, ?_⟩
    · intro r hr
      obtain ⟨u, hu⟩ := h3 r hr
      rw [hu]
      exact sampleCandidate_range u
    · match results, h2 with
      | r :: rs, _ =>
        obtain ⟨b, _, hb2, hb3, hb4⟩ := bestTrial_spec r rs
        exact ⟨b, hb2, hb3, hb4⟩

/-- Witness for C4 at a concrete input: default CLI arguments, a trivial
model, one training and one test example, the constant-zero sampler
stream. -/
theorem C4_five_trials_and_best_params_witness :
    (({} : Args).log_interval ≠ 0 ∧ ([⟨0, 0⟩] : List Example) ≠ []) ∧
    (runTrials (fun raw => objective (Θ := ℕ) false (fun s => s)
        (fun _ _ => [0]) (fun _ θ _ => θ) id [⟨0, 0⟩] [⟨0, 0⟩] {} raw 0)
        (fun _ => (0, 0)) 0 5 = .error .typeError ∧
    ∃ results, runTrials (fun raw => objectiveFixed (Θ := ℕ) false
        (fun s => s) (fun _ _ => [0]) (fun _ θ _ => θ) id [⟨0, 0⟩]
        [⟨0, 0⟩] {} raw 0) (fun _ => (0, 0)) 0 5 = .ok results ∧
      results.length = 5 ∧
      (∀ r ∈ results,
        0 < r.1.1 ∧ r.1.1 ≤ lrHigh ∧ 1 ≤ r.1.2 ∧ r.1.2 ≤ 10) ∧
      ∃ b ∈ results, best_params results = some b.1 ∧
        ∀ r ∈ results, b.2 ≤ r.2) :=
  ⟨⟨by decide, by decide⟩,
    C4_five_trials_and_best_params false (fun s => s) (fun _ _ => [0])
      (fun _ θ _ => θ) id [⟨0, 0⟩] [⟨0, 0⟩] {} (fun _ => (0, 0)) 0
      (by decide) (by decide)⟩

